import Mathlib

/-!
Verification of the blogicum blog application's query/authorization layer
(`blog/views.py`) against its natural-language specification.

The Django views are shallowly embedded: the database is a record of lists,
a request identity is `Option Nat` (`none` = anonymous user, `some u` =
authenticated user with id `u`), time is an explicit `Int` parameter standing
for `timezone.now()`, and each view's queryset / dispatch logic is a pure
function returning a `Resp` value (the rendered object, an Http404, a
PermissionDenied, a redirect to a post's detail page, or a redirect to login).
Mutating requests return the resulting database alongside the response.
-/

namespace Blogicum

/-- Category row: slug and published flag (models referenced by `blog/admin.py`
and filtered via `category__is_published` / `slug` in `blog/views.py`). -/
structure Category where
  id : Nat
  slug : String
  is_published : Bool
  deriving DecidableEq, Repr

/-- Post row: the fields `blog/views.py` reads (`pub_date`, `author`,
`category`, `location`, `is_published`) plus the content fields listed in
`blog/admin.py` (`title`, `text`). `author` and `category` are foreign keys
by id; `location` is optional. -/
structure Post where
  id : Nat
  title : String
  text : String
  pub_date : Int
  author : Nat
  location : Option Nat
  category : Nat
  is_published : Bool
  deriving DecidableEq, Repr

/-- Comment row: belongs to one post and one author (`Comment` model used by
`CommentCreateView`/`CommentUpdateView`/`CommentDeleteView`). -/
structure Comment where
  id : Nat
  post : Nat
  author : Nat
  text : String
  deriving DecidableEq, Repr

/-- User row: id plus the username `ProfileListView` resolves. -/
structure User where
  id : Nat
  username : String
  deriving DecidableEq, Repr

/-- The relational store the views query. -/
structure Db where
  users : List User
  categories : List Category
  posts : List Post
  comments : List Comment
  deriving DecidableEq, Repr

/-- Response of a view: a value, `Http404`, `PermissionDenied` (raised by
`UserPassesTestMixin` for an authenticated user failing the test), a redirect
to a post's detail page, or a redirect to the login page (issued by
`LoginRequiredMixin`, and by `UserPassesTestMixin` for an anonymous user). -/
inductive Resp (α : Type) where
  | ok : α → Resp α
  | http404 : Resp α
  | permissionDenied : Resp α
  | loginRedirect : Resp α
  | redirectToPostDetail : Nat → Resp α
  deriving DecidableEq, Repr

/-- `Count('comments')` for one post: number of comments whose `post` foreign
key is this post. -/
def commentCount (db : Db) (p : Post) : Nat :=
  (db.comments.filter (fun c => c.post == p.id)).length

/-- The `category__is_published=True` join condition for a post: its category
row exists and is published. -/
def categoryIsPublished (db : Db) (p : Post) : Bool :=
  match db.categories.find? (fun c => c.id == p.category) with
  | some c => c.is_published
  | none => false

/-- Public visibility of a post, as the spec states it: published, not
future-dated, and in a published category. -/
def publiclyVisible (db : Db) (now : Int) (p : Post) : Bool :=
  p.is_published && decide (p.pub_date ≤ now) && categoryIsPublished db p

/-- Descending publication-date order: `a` comes before `b` when
`b.pub_date ≤ a.pub_date` (the `ordering = '-pub_date'` of the list views). -/
def pubDateGe (a b : Post) : Prop := b.pub_date ≤ a.pub_date

instance : DecidableRel pubDateGe :=
  fun a b => inferInstanceAs (Decidable (b.pub_date ≤ a.pub_date))

instance : IsTotal Post pubDateGe := ⟨fun a b => le_total b.pub_date a.pub_date⟩

instance : IsTrans Post pubDateGe := ⟨fun _ _ _ h1 h2 => le_trans h2 h1⟩

/-- `ordering = '-pub_date'`: the base queryset ordered by publication date
descending (modelled with a stable sort). -/
def orderByPubDateDesc (l : List Post) : List Post :=
  l.insertionSort pubDateGe

/-- `.annotate(comment_count=Count('comments'))`: pair each post with its
comment count. -/
def annotateCommentCount (db : Db) (l : List Post) : List (Post × Nat) :=
  l.map (fun p => (p, commentCount db p))

/-- `PostsListView.get_queryset` (index page): ordered base queryset filtered
by `is_published=True, pub_date__lte=now, category__is_published=True`,
annotated with the comment count. -/
def PostsListView_get_queryset (db : Db) (now : Int) : List (Post × Nat) :=
  annotateCommentCount db
    ((orderByPubDateDesc db.posts).filter (fun p =>
      p.is_published && decide (p.pub_date ≤ now) && categoryIsPublished db p))

/-- `ProfileListView.get_queryset`: resolve the user by username (404 when
absent), take their posts annotated with comment counts, and, unless the
requester is the profile owner, keep only the published, non-future posts in
published categories. -/
def ProfileListView_get_queryset (db : Db) (now : Int) (requester : Option Nat)
    (username : String) : Resp (List (Post × Nat)) :=
  match db.users.find? (fun u => u.username == username) with
  | none => .http404
  | some profile =>
    let qs := annotateCommentCount db
      ((orderByPubDateDesc db.posts).filter (fun p => p.author == profile.id))
    if requester != some profile.id then
      .ok (qs.filter (fun pc =>
        pc.1.is_published && decide (pc.1.pub_date ≤ now) && categoryIsPublished db pc.1))
    else
      .ok qs

/-- `PostsInCategoryListView.get_queryset`: resolve the category by slug with
`is_published=True` (404 when no such published category), then the published,
non-future posts of that category, annotated with comment counts. -/
def PostsInCategoryListView_get_queryset (db : Db) (now : Int)
    (category_slug : String) : Resp (List (Post × Nat)) :=
  match db.categories.find? (fun c => c.slug == category_slug && c.is_published) with
  | none => .http404
  | some category =>
    .ok (annotateCommentCount db
      ((orderByPubDateDesc db.posts).filter (fun p =>
        p.is_published && decide (p.pub_date ≤ now) && p.category == category.id)))

/-- Fixed page size of `PostsListView` (`paginate_by = 10`). -/
def PostsListView_paginate_by : Nat := 10

/-- Fixed page size of `ProfileListView` (`paginate_by = 10`). -/
def ProfileListView_paginate_by : Nat := 10

/-- Fixed page size of `PostsInCategoryListView` (`paginate_by = 10`). -/
def PostsInCategoryListView_paginate_by : Nat := 10

/-- Split a list into consecutive pages of `pageSize` elements (fuel-indexed
helper; the fuel is instantiated with the list length, which suffices for a
positive page size). -/
def paginateAux (pageSize : Nat) : Nat → List (Post × Nat) → List (List (Post × Nat))
  | _, [] => []
  | 0, l => [l]
  | fuel + 1, l => l.take pageSize :: paginateAux pageSize fuel (l.drop pageSize)

/-- Django's paginator: consecutive pages of `pageSize` rows. -/
def paginate (pageSize : Nat) (l : List (Post × Nat)) : List (List (Post × Nat)) :=
  paginateAux pageSize l.length l

/-- `PostDetailView.get_object`: look the post up by pk (404 when absent);
raise Http404 unless the post is published or the requester is its author. -/
def PostDetailView_get_object (db : Db) (requester : Option Nat) (pk : Nat) :
    Resp Post :=
  match db.posts.find? (fun p => p.id == pk) with
  | none => .http404
  | some post =>
    if !(post.is_published || (some post.author == requester)) then .http404
    else .ok post

/-- `PostCreateView.form_valid`: the form instance's author is overwritten
with the requesting user before saving. -/
def PostCreateView_form_valid (requester : Nat) (formData : Post) : Post :=
  { formData with author := requester }

/-- `PostCreateView` request (`LoginRequiredMixin`): anonymous users are
redirected to login; otherwise the post from the form is saved with its author
forced to the requesting user. -/
def PostCreateView_request (db : Db) (requester : Option Nat) (formData : Post) :
    Resp Post × Db :=
  match requester with
  | none => (.loginRedirect, db)
  | some u =>
    let p := PostCreateView_form_valid u formData
    (.ok p, { db with posts := db.posts ++ [p] })

/-- `PostUpdateView` request: `dispatch` fetches the post (404 when absent)
and, when the requester is not the author, redirects to the post's detail page
without touching the store; otherwise the form updates the post's content
fields (id and author are not form fields). -/
def PostUpdateView_request (db : Db) (requester : Option Nat) (pk : Nat)
    (formData : Post) : Resp Post × Db :=
  match db.posts.find? (fun p => p.id == pk) with
  | none => (.http404, db)
  | some post =>
    if some post.author != requester then
      (.redirectToPostDetail post.id, db)
    else
      let updated : Post := { formData with id := post.id, author := post.author }
      (.ok updated,
       { db with posts := db.posts.map (fun q => if q.id == post.id then updated else q) })

/-- `PostDeleteView` request (`OnlyAuthorMixin`): fetch the post (404 when
absent); `test_func` compares the post's author with the requester, and on
failure `UserPassesTestMixin` raises PermissionDenied for an authenticated
requester and redirects an anonymous one to login; on success the post is
deleted. -/
def PostDeleteView_request (db : Db) (requester : Option Nat) (pk : Nat) :
    Resp Unit × Db :=
  match db.posts.find? (fun p => p.id == pk) with
  | none => (.http404, db)
  | some post =>
    if some post.author == requester then
      (.ok (), { db with posts := db.posts.filter (fun q => !(q.id == post.id)) })
    else if requester.isSome then (.permissionDenied, db)
    else (.loginRedirect, db)

/-- `CommentCreateView` request (`LoginRequiredMixin`): anonymous users are
redirected to login; `form_valid` looks the target post up by pk (404 when
absent) and saves a comment whose author is the requesting user and whose post
reference is the fetched post. -/
def CommentCreateView_request (db : Db) (requester : Option Nat) (pk : Nat)
    (text : String) (newId : Nat) : Resp Comment × Db :=
  match requester with
  | none => (.loginRedirect, db)
  | some u =>
    match db.posts.find? (fun p => p.id == pk) with
    | none => (.http404, db)
    | some post =>
      let c : Comment := { id := newId, post := post.id, author := u, text := text }
      (.ok c, { db with comments := db.comments ++ [c] })

/-- `CommentUpdateView` request (`OnlyAuthorMixin`): fetch the comment by
`comment_id` (404 when absent); non-authors are denied (PermissionDenied when
authenticated, login redirect when anonymous); the author updates the text. -/
def CommentUpdateView_request (db : Db) (requester : Option Nat)
    (comment_id : Nat) (newText : String) : Resp Comment × Db :=
  match db.comments.find? (fun c => c.id == comment_id) with
  | none => (.http404, db)
  | some comment =>
    if some comment.author == requester then
      let updated : Comment := { comment with text := newText }
      (.ok updated,
       { db with comments := db.comments.map (fun c => if c.id == comment.id then updated else c) })
    else if requester.isSome then (.permissionDenied, db)
    else (.loginRedirect, db)

/-- `CommentDeleteView` request (`OnlyAuthorMixin`): fetch the comment by
`comment_id` (404 when absent); non-authors are denied (PermissionDenied when
authenticated, login redirect when anonymous); the author deletes it. -/
def CommentDeleteView_request (db : Db) (requester : Option Nat)
    (comment_id : Nat) : Resp Unit × Db :=
  match db.comments.find? (fun c => c.id == comment_id) with
  | none => (.http404, db)
  | some comment =>
    if some comment.author == requester then
      (.ok (), { db with comments := db.comments.filter (fun c => !(c.id == comment.id)) })
    else if requester.isSome then (.permissionDenied, db)
    else (.loginRedirect, db)

/-- Extract the page list from an `ok` response (empty list otherwise). -/
def okList (r : Resp (List (Post × Nat))) : List (Post × Nat) :=
  match r with
  | .ok l => l
  | _ => []

/-- Descending publication-date order on annotated rows. -/
def pairDesc (a b : Post × Nat) : Prop := b.1.pub_date ≤ a.1.pub_date

/-- Example data: a published category. -/
def catPub : Category := { id := 0, slug := "tech", is_published := true }

/-- Example data: an unpublished category. -/
def catUnpub : Category := { id := 1, slug := "draft", is_published := false }

/-- Example data: an unpublished post by user 1 in the published category. -/
def postUnpub : Post :=
  { id := 0, title := "a", text := "b", pub_date := 0, author := 1,
    location := none, category := 0, is_published := false }

/-- Example data: a published but future-dated post by user 1 in the
unpublished category. -/
def postFuture : Post :=
  { id := 1, title := "c", text := "d", pub_date := 200, author := 1,
    location := none, category := 1, is_published := true }

/-- Example data: a published, past-dated post by user 1 in the published
category. -/
def postPub : Post :=
  { id := 2, title := "e", text := "f", pub_date := 50, author := 1,
    location := none, category := 0, is_published := true }

/-- Example data: user 1. -/
def user1 : User := { id := 1, username := "alice" }

/-- Example data: user 2. -/
def user2 : User := { id := 2, username := "bob" }

/-- Example data: a comment by user 1 on the published post. -/
def comment0 : Comment := { id := 0, post := 2, author := 1, text := "hi" }

/-- Example store. -/
def exDb : Db :=
  { users := [user1, user2], categories := [catPub, catUnpub],
    posts := [postUnpub, postFuture, postPub], comments := [comment0] }

/-- Example current time: `postPub` is past, `postFuture` is future. -/
def exNow : Int := 100

theorem mem_orderByPubDateDesc {l : List Post} {p : Post} :
    p ∈ orderByPubDateDesc l ↔ p ∈ l :=
  (List.perm_insertionSort pubDateGe l).mem_iff

theorem sorted_orderByPubDateDesc (l : List Post) :
    List.Sorted pubDateGe (orderByPubDateDesc l) :=
  List.sorted_insertionSort pubDateGe l

theorem map_fst_annotateCommentCount (db : Db) (l : List Post) :
    (annotateCommentCount db l).map Prod.fst = l := by
  simp only [annotateCommentCount, List.map_map]
  exact List.map_id l

theorem mem_annotateCommentCount {db : Db} {l : List Post} {x : Post × Nat} :
    x ∈ annotateCommentCount db l ↔ x.1 ∈ l ∧ x.2 = commentCount db x.1 := by
  constructor
  · intro hx
    rcases List.mem_map.1 hx with ⟨p, hp, rfl⟩
    exact ⟨hp, rfl⟩
  · rintro ⟨h1, h2⟩
    have : x = (x.1, commentCount db x.1) := by
      cases x with
      | mk a b => simpa using h2
    rw [this]
    exact List.mem_map.2 ⟨x.1, h1, rfl⟩

theorem sorted_annotateCommentCount {db : Db} {l : List Post}
    (h : List.Sorted pubDateGe l) :
    List.Sorted pairDesc (annotateCommentCount db l) :=
  List.Pairwise.map _ (fun _ _ hab => hab) h

/-- C2 counterexample: the claim fails on the code. `postFuture` is published
but future-dated (`exNow < pub_date`) and sits in an unpublished category, and
the requester (user 2) is not its author, so the claim demands a not-found
response; `PostDetailView_get_object` nevertheless returns the post, because
the code checks only `is_published`. -/
theorem C2_counterexample :
    postFuture.is_published = true ∧
    exNow < postFuture.pub_date ∧
    categoryIsPublished exDb postFuture = false ∧
    (2 : Nat) ≠ postFuture.author ∧
    PostDetailView_get_object exDb (some 2) 1 = .ok postFuture := by decide

/-- C2 (amended): `PostDetailView.get_object` returns the post to a
non-author iff the post's `is_published` flag is true — `pub_date` and the
category's publish flag are not checked — and always returns it to the
author; otherwise it raises Http404. -/
theorem C2_detail_visibility (db : Db) (r : Option Nat) (pk : Nat) (p : Post)
    (hfind : db.posts.find? (fun q => q.id == pk) = some p) :
    PostDetailView_get_object db r pk =
      (if p.is_published || (some p.author == r) then .ok p else .http404) := by
  simp only [PostDetailView_get_object, hfind]
  cases h : p.is_published || (some p.author == r) <;> simp [h]

/-- C2 witness: instantiates the amended detail-visibility rule on the
example store, where the future-dated post in an unpublished category is
served to a non-author because it is flagged published. -/
theorem C2_detail_visibility_witness :
    exDb.posts.find? (fun q => q.id == 1) = some postFuture ∧
    PostDetailView_get_object exDb (some 2) 1 =
      (if postFuture.is_published || (some postFuture.author == (some 2 : Option Nat))
        then .ok postFuture else .http404) :=
  ⟨by decide, C2_detail_visibility exDb (some 2) 1 postFuture (by decide)⟩

/-- C3 counterexample: the claim fails on the code for deletion. User 2 is
not the author of `postUnpub`, and a delete request yields PermissionDenied
(via `OnlyAuthorMixin`), not a redirect to the post's detail page as the
claim demands. -/
theorem C3_counterexample :
    exDb.posts.find? (fun p => p.id == 0) = some postUnpub ∧
    (2 : Nat) ≠ postUnpub.author ∧
    PostDeleteView_request exDb (some 2) 0 = (.permissionDenied, exDb) := by decide

/-- C3 (amended): a non-author edit request on a post redirects to that
post's detail page with the store unchanged; a non-author delete request by
an authenticated user is denied (PermissionDenied), also with the store
unchanged. -/
theorem C3_nonauthor_post_mutation (db : Db) (r : Option Nat) (u pk : Nat)
    (p fd : Post)
    (hfind : db.posts.find? (fun q => q.id == pk) = some p)
    (hr : r ≠ some p.author) (hu : u ≠ p.author) :
    PostUpdateView_request db r pk fd = (.redirectToPostDetail p.id, db) ∧
    PostDeleteView_request db (some u) pk = (.permissionDenied, db) := by
  constructor
  · simp only [PostUpdateView_request, hfind]
    have : (some p.author != r) = true := by
      simp only [bne_iff_ne, ne_eq]
      exact fun h => hr h.symm
    simp [this]
  · simp only [PostDeleteView_request, hfind]
    have : (some p.author == some u) = false := by
      simp only [beq_eq_false_iff_ne, ne_eq, Option.some.injEq]
      exact fun h => hu h.symm
    simp [this]

/-- C3 witness: instantiates the amended rule at the example store with
requester user 2 on post 0 (authored by user 1). -/
theorem C3_nonauthor_post_mutation_witness :
    PostUpdateView_request exDb (some 2) 0 postPub =
      (.redirectToPostDetail postUnpub.id, exDb) ∧
    PostDeleteView_request exDb (some 2) 0 = (.permissionDenied, exDb) :=
  C3_nonauthor_post_mutation exDb (some 2) 2 0 postUnpub postPub
    (by decide) (by decide) (by decide)

/-- C4: a comment edit or delete request by an authenticated requester who is
not the comment's author is denied (PermissionDenied) and leaves the store
unchanged. -/
theorem C4_nonauthor_comment_mutation (db : Db) (u cid : Nat) (t : String)
    (c : Comment)
    (hfind : db.comments.find? (fun x => x.id == cid) = some c)
    (hne : u ≠ c.author) :
    CommentUpdateView_request db (some u) cid t = (.permissionDenied, db) ∧
    CommentDeleteView_request db (some u) cid = (.permissionDenied, db) := by
  have hbeq : (some c.author == some u) = false := by
    simp only [beq_eq_false_iff_ne, ne_eq, Option.some.injEq]
    exact fun h => hne h.symm
  constructor
  · simp only [CommentUpdateView_request, hfind]
    simp [hbeq]
  · simp only [CommentDeleteView_request, hfind]
    simp [hbeq]

/-- C4 witness: user 2 attempts to edit and to delete comment 0 (authored by
user 1) in the example store and is denied both times. -/
theorem C4_nonauthor_comment_mutation_witness :
    CommentUpdateView_request exDb (some 2) 0 "zz" = (.permissionDenied, exDb) ∧
    CommentDeleteView_request exDb (some 2) 0 = (.permissionDenied, exDb) :=
  C4_nonauthor_comment_mutation exDb 2 0 "zz" comment0 (by decide) (by decide)

/-- C7: every successfully created comment carries the requesting user as its
author and the pk-resolved post as its post reference, and is appended to the
comment table. -/
theorem C7_comment_references (db : Db) (u pk newId : Nat) (t : String)
    (c : Comment) (db2 : Db)
    (h : CommentCreateView_request db (some u) pk t newId = (.ok c, db2)) :
    c.author = u ∧ c.post = pk ∧
    db2 = { db with comments := db.comments ++ [c] } := by
  simp only [CommentCreateView_request] at h
  cases hf : db.posts.find? (fun p => p.id == pk) with
  | none =>
    rw [hf] at h
    exact absurd (congrArg Prod.fst h) (by simp)
  | some post =>
    rw [hf] at h
    have hpk := List.find?_some hf
    have hid : post.id = pk := by simpa using hpk
    have hc0 : Resp.ok (Comment.mk newId post.id u t) = Resp.ok c :=
      congrArg Prod.fst h
    have hc : Comment.mk newId post.id u t = c := by injection hc0
    have hdb : db2 = { db with comments := db.comments ++ [Comment.mk newId post.id u t] } :=
      (congrArg Prod.snd h).symm
    subst hc
    exact ⟨rfl, hid, hdb⟩

/-- C7 witness: user 2 comments on post 2 in the example store; the created
comment references post 2 and author 2 and is appended. -/
theorem C7_comment_references_witness :
    (Comment.mk 5 2 2 "yo").author = 2 ∧ (Comment.mk 5 2 2 "yo").post = 2 ∧
    ({ exDb with comments := exDb.comments ++ [Comment.mk 5 2 2 "yo"] } : Db) =
      { exDb with comments := exDb.comments ++ [Comment.mk 5 2 2 "yo"] } :=
  C7_comment_references exDb 2 2 5 "yo" (Comment.mk 5 2 2 "yo") _ (by decide)

/-- C8: `PostCreateView.form_valid` overwrites the form instance's author
with the requesting user, so a successful post creation stores the post with
the requester as author regardless of the author value carried by the form
data. -/
theorem C8_post_author_forced (db : Db) (u : Nat) (fd : Post) :
    PostCreateView_request db (some u) fd =
      (.ok { fd with author := u },
       { db with posts := db.posts ++ [{ fd with author := u }] }) ∧
    (PostCreateView_form_valid u fd).author = u :=
  ⟨rfl, rfl⟩

/-- C9: when every category carrying the requested slug is unpublished — in
particular when the slug names an existing but unpublished category, and also
when no category has the slug — the category listing answers Http404, the
same not-found response in both cases. -/
theorem C9_unpublished_category_404 (db : Db) (now : Int) (slug : String)
    (h : ∀ c ∈ db.categories, c.slug = slug → c.is_published = false) :
    PostsInCategoryListView_get_queryset db now slug = .http404 := by
  have hnone : db.categories.find? (fun c => c.slug == slug && c.is_published) = none := by
    rw [List.find?_eq_none]
    intro c hc
    simp only [Bool.and_eq_true, beq_iff_eq, not_and]
    intro hs
    simp [h c hc hs]
  simp [PostsInCategoryListView_get_queryset, hnone]

/-- C9 witness: the slug of the existing unpublished category `catUnpub`
yields Http404 from the category listing of the example store. -/
theorem C9_unpublished_category_404_witness :
    PostsInCategoryListView_get_queryset exDb exNow "draft" = .http404 :=
  C9_unpublished_category_404 exDb exNow "draft" (by decide)

/-- C10: comment creation by an authenticated user checks only that the
target post exists: a missing pk answers Http404, and any existing post —
with no condition on its publish flag, date, or author — accepts the comment. -/
theorem C10_comment_existence_only (db : Db) (u pk newId : Nat) (t : String) :
    (db.posts.find? (fun q => q.id == pk) = none →
      CommentCreateView_request db (some u) pk t newId = (.http404, db)) ∧
    (∀ p, db.posts.find? (fun q => q.id == pk) = some p →
      CommentCreateView_request db (some u) pk t newId =
        (.ok (Comment.mk newId p.id u t),
         { db with comments := db.comments ++ [Comment.mk newId p.id u t] })) := by
  constructor
  · intro h
    simp [CommentCreateView_request, h]
  · intro p h
    simp [CommentCreateView_request, h]

/-- C10 witness: user 2 comments on `postUnpub`, a post that is unpublished
(hence invisible to user 2) yet accepts the comment because it exists. -/
theorem C10_comment_existence_only_witness :
    postUnpub.is_published = false ∧
    CommentCreateView_request exDb (some 2) 0 "c" 9 =
      (.ok (Comment.mk 9 0 2 "c"),
       { exDb with comments := exDb.comments ++ [Comment.mk 9 0 2 "c"] }) :=
  ⟨rfl, (C10_comment_existence_only exDb 2 0 9 "c").2 postUnpub (by decide)⟩

/-- C1 counterexample: the claim fails on the code. `postUnpub` is a
candidate post whose author (user 1) is the requester, so the claim demands
its inclusion in the index listing; `PostsListView.get_queryset` applies only
the public filter — with no author exception — and excludes it. -/
theorem C1_counterexample :
    postUnpub ∈ exDb.posts ∧ postUnpub.author = 1 ∧
    postUnpub ∉ (PostsListView_get_queryset exDb exNow).map Prod.fst := by decide

/-- C1 (amended): the public filter `is_published AND pub_date ≤ now AND
category.is_published` is applied by all three listings, but the author
exception exists only in the profile listing: the index includes exactly the
publicly visible posts, for every requester; the category listing (once the
slug resolves to a published category) includes exactly the published,
non-future posts of that category, for every requester; the profile listing
includes exactly the posts authored by the profile owner that are publicly
visible or whose author is the requester. -/
theorem C1_listing_inclusion (db : Db) (now : Int) (r : Option Nat)
    (username slug : String) (p : Post) :
    (p ∈ (PostsListView_get_queryset db now).map Prod.fst ↔
      p ∈ db.posts ∧ publiclyVisible db now p = true) ∧
    (∀ cat, db.categories.find? (fun c => c.slug == slug && c.is_published) = some cat →
      ∀ l, PostsInCategoryListView_get_queryset db now slug = .ok l →
        (p ∈ l.map Prod.fst ↔
          p ∈ db.posts ∧ p.is_published = true ∧ p.pub_date ≤ now ∧ p.category = cat.id)) ∧
    (∀ profile, db.users.find? (fun u => u.username == username) = some profile →
      ∀ l, ProfileListView_get_queryset db now r username = .ok l →
        (p ∈ l.map Prod.fst ↔
          p ∈ db.posts ∧ p.author = profile.id ∧
            (publiclyVisible db now p = true ∨ r = some profile.id))) := by
  refine ⟨?_, ?_, ?_⟩
  · simp only [PostsListView_get_queryset, map_fst_annotateCommentCount,
      List.mem_filter, mem_orderByPubDateDesc, publiclyVisible]
  · intro cat hcat l hl
    simp only [PostsInCategoryListView_get_queryset, hcat, Resp.ok.injEq] at hl
    subst hl
    simp only [map_fst_annotateCommentCount, List.mem_filter,
      mem_orderByPubDateDesc, Bool.and_eq_true, decide_eq_true_eq, beq_iff_eq]
    tauto
  · intro profile hprof l hl
    simp only [ProfileListView_get_queryset, hprof] at hl
    by_cases hr : r = some profile.id
    · have hcond : (r != some profile.id) = false := by
        simp [hr]
      rw [hcond] at hl
      simp only [Bool.false_eq_true, if_false, Resp.ok.injEq] at hl
      subst hl
      simp only [map_fst_annotateCommentCount, List.mem_filter,
        mem_orderByPubDateDesc, beq_iff_eq, hr]
      tauto
    · have hcond : (r != some profile.id) = true := bne_iff_ne.mpr hr
      rw [hcond] at hl
      simp only [if_true, Resp.ok.injEq] at hl
      subst hl
      simp only [annotateCommentCount, List.mem_map, List.mem_filter,
        mem_orderByPubDateDesc, publiclyVisible, hr]
      constructor
      · rintro ⟨x, ⟨⟨q, ⟨hq, hqa⟩, rfl⟩, hpred⟩, rfl⟩
        simp only [beq_iff_eq] at hqa
        exact ⟨hq, hqa, Or.inl hpred⟩
      · rintro ⟨hp, ha, hvis | hfalse⟩
        · refine ⟨(p, commentCount db p), ⟨⟨p, ⟨hp, by simp [ha]⟩, rfl⟩, hvis⟩, rfl⟩
        · exact hfalse.elim

/-- C1 witness: instantiates the amended inclusion rules on the example
store: the published past post appears in the index and in its category's
listing, and the owner's profile listing contains their unpublished post. -/
theorem C1_listing_inclusion_witness :
    postPub ∈ (PostsListView_get_queryset exDb exNow).map Prod.fst ∧
    postPub ∈ (okList (PostsInCategoryListView_get_queryset exDb exNow "tech")).map Prod.fst ∧
    postUnpub ∈ (okList (ProfileListView_get_queryset exDb exNow (some 1) "alice")).map Prod.fst := by
  have h1 := C1_listing_inclusion exDb exNow (some 1) "alice" "tech" postPub
  have h2 := C1_listing_inclusion exDb exNow (some 1) "alice" "tech" postUnpub
  refine ⟨h1.1.mpr (by decide), ?_, ?_⟩
  · exact (h1.2.1 catPub (by decide) _ (by decide)).mpr (by decide)
  · exact (h2.2.2 user1 (by decide) _ (by decide)).mpr (by decide)

/-- C5: the profile listing resolves the target user by username, answering
Http404 when no such user exists; when the requester is the owner it contains
exactly the owner's posts regardless of publish state or date, and for any
other requester exactly the owner's publicly visible posts. -/
theorem C5_profile_listing (db : Db) (now : Int) (r : Option Nat)
    (username : String) :
    (db.users.find? (fun u => u.username == username) = none →
      ProfileListView_get_queryset db now r username = .http404) ∧
    (∀ profile, db.users.find? (fun u => u.username == username) = some profile →
      ∀ l, ProfileListView_get_queryset db now r username = .ok l →
        ((r = some profile.id →
           ∀ p : Post, p ∈ l.map Prod.fst ↔ p ∈ db.posts ∧ p.author = profile.id) ∧
         (r ≠ some profile.id →
           ∀ p : Post, p ∈ l.map Prod.fst ↔
             p ∈ db.posts ∧ p.author = profile.id ∧ publiclyVisible db now p = true))) := by
  constructor
  · intro hnone
    simp [ProfileListView_get_queryset, hnone]
  · intro profile hprof l hl
    simp only [ProfileListView_get_queryset, hprof] at hl
    constructor
    · intro hr p
      have hcond : (r != some profile.id) = false := by simp [hr]
      rw [hcond] at hl
      simp only [Bool.false_eq_true, if_false, Resp.ok.injEq] at hl
      subst hl
      simp only [map_fst_annotateCommentCount, List.mem_filter,
        mem_orderByPubDateDesc, beq_iff_eq]
    · intro hr p
      have hcond : (r != some profile.id) = true := bne_iff_ne.mpr hr
      rw [hcond] at hl
      simp only [if_true, Resp.ok.injEq] at hl
      subst hl
      simp only [annotateCommentCount, List.mem_map, List.mem_filter,
        mem_orderByPubDateDesc, publiclyVisible]
      constructor
      · rintro ⟨x, ⟨⟨q, ⟨hq, hqa⟩, rfl⟩, hpred⟩, rfl⟩
        simp only [beq_iff_eq] at hqa
        exact ⟨hq, hqa, hpred⟩
      · rintro ⟨hp, ha, hvis⟩
        exact ⟨(p, commentCount db p), ⟨⟨p, ⟨hp, by simp [ha]⟩, rfl⟩, hvis⟩, rfl⟩

/-- C5 witness: on the example store, "alice" (user 1) sees her unpublished
post in her own profile listing, while user 2 viewing the same profile does
not see it. -/
theorem C5_profile_listing_witness :
    postUnpub ∈ (okList (ProfileListView_get_queryset exDb exNow (some 1) "alice")).map Prod.fst ∧
    postUnpub ∉ (okList (ProfileListView_get_queryset exDb exNow (some 2) "alice")).map Prod.fst := by
  constructor
  · exact (((C5_profile_listing exDb exNow (some 1) "alice").2 user1 (by decide)
      _ (by decide)).1 (by decide) postUnpub).mpr (by decide)
  · intro hmem
    have h := (((C5_profile_listing exDb exNow (some 2) "alice").2 user1 (by decide)
      _ (by decide)).2 (by decide) postUnpub).mp hmem
    exact absurd h.2.2 (by decide)

/-- Every page produced by `paginateAux` with a positive page size and enough
fuel has at most `pageSize` rows. -/
theorem length_le_of_mem_paginateAux {ps : Nat} (hps : 0 < ps) :
    ∀ fuel (l : List (Post × Nat)) page, l.length ≤ fuel →
      page ∈ paginateAux ps fuel l → page.length ≤ ps := by
  intro fuel
  induction fuel with
  | zero =>
    intro l page hl hp
    cases l with
    | nil => simp [paginateAux] at hp
    | cons a t => simp at hl
  | succ n ih =>
    intro l page hl hp
    cases l with
    | nil => simp [paginateAux] at hp
    | cons a t =>
      simp only [paginateAux, List.mem_cons] at hp
      rcases hp with h | h
      · subst h
        simp only [List.length_take]
        exact min_le_left _ _
      · refine ih _ _ ?_ h
        simp only [List.length_drop, List.length_cons]
        simp only [List.length_cons] at hl
        omega

/-- C6: every listing query pairs each returned post with the number of its
comments, is sorted by publication date descending, and is paginated at the
fixed page size 10 (every page holds at most `paginate_by` rows). -/
theorem C6_listing_shape (db : Db) (now : Int) (r : Option Nat)
    (username slug : String) :
    List.Sorted pairDesc (PostsListView_get_queryset db now) ∧
    (∀ x ∈ PostsListView_get_queryset db now, x.2 = commentCount db x.1) ∧
    (∀ l, ProfileListView_get_queryset db now r username = .ok l →
      List.Sorted pairDesc l ∧ ∀ x ∈ l, x.2 = commentCount db x.1) ∧
    (∀ l, PostsInCategoryListView_get_queryset db now slug = .ok l →
      List.Sorted pairDesc l ∧ ∀ x ∈ l, x.2 = commentCount db x.1) ∧
    PostsListView_paginate_by = 10 ∧ ProfileListView_paginate_by = 10 ∧
    PostsInCategoryListView_paginate_by = 10 ∧
    (∀ (l : List (Post × Nat)) page, page ∈ paginate PostsListView_paginate_by l →
      page.length ≤ PostsListView_paginate_by) := by
  refine ⟨?_, ?_, ?_, ?_, rfl, rfl, rfl, ?_⟩
  · exact sorted_annotateCommentCount
      (List.Pairwise.filter _ (sorted_orderByPubDateDesc db.posts))
  · intro x hx
    exact (mem_annotateCommentCount.1 hx).2
  · intro l hl
    cases hprof : db.users.find? (fun u => u.username == username) with
    | none =>
      simp only [ProfileListView_get_queryset, hprof] at hl
      exact absurd hl (by simp)
    | some profile =>
      simp only [ProfileListView_get_queryset, hprof] at hl
      by_cases hr : (r != some profile.id) = true
      · rw [hr] at hl
        simp only [if_true, Resp.ok.injEq] at hl
        subst hl
        refine ⟨List.Pairwise.filter _ (sorted_annotateCommentCount
          (List.Pairwise.filter _ (sorted_orderByPubDateDesc db.posts))), ?_⟩
        intro x hx
        exact (mem_annotateCommentCount.1 (List.mem_of_mem_filter hx)).2
      · rw [Bool.not_eq_true] at hr
        rw [hr] at hl
        simp only [Bool.false_eq_true, if_false, Resp.ok.injEq] at hl
        subst hl
        refine ⟨sorted_annotateCommentCount
          (List.Pairwise.filter _ (sorted_orderByPubDateDesc db.posts)), ?_⟩
        intro x hx
        exact (mem_annotateCommentCount.1 hx).2
  · intro l hl
    cases hcat : db.categories.find? (fun c => c.slug == slug && c.is_published) with
    | none =>
      simp only [PostsInCategoryListView_get_queryset, hcat] at hl
      exact absurd hl (by simp)
    | some cat =>
      simp only [PostsInCategoryListView_get_queryset, hcat, Resp.ok.injEq] at hl
      subst hl
      refine ⟨sorted_annotateCommentCount
        (List.Pairwise.filter _ (sorted_orderByPubDateDesc db.posts)), ?_⟩
      intro x hx
      exact (mem_annotateCommentCount.1 hx).2
  · intro l page hp
    exact length_le_of_mem_paginateAux (by decide) l.length l page (le_refl _) hp

/-- C6 witness: instantiates the listing-shape theorem on the example store
for all three listings, and checks a concrete comment count. -/
theorem C6_listing_shape_witness :
    List.Sorted pairDesc (PostsListView_get_queryset exDb exNow) ∧
    List.Sorted pairDesc (okList (ProfileListView_get_queryset exDb exNow (some 1) "alice")) ∧
    List.Sorted pairDesc (okList (PostsInCategoryListView_get_queryset exDb exNow "tech")) ∧
    ((postPub, 1) : Post × Nat).2 = commentCount exDb postPub := by
  have h := C6_listing_shape exDb exNow (some 1) "alice" "tech"
  refine ⟨h.1, (h.2.2.1 _ (by decide)).1, (h.2.2.2.1 _ (by decide)).1, ?_⟩
  exact h.2.1 (postPub, 1) (by decide)

end Blogicum
